import Mathlib

/-!
Shallow embedding of the bun-url-switcher URL registry service.

The service stores rows of a single `urls` table and exposes list / get /
create / update / delete handlers.  The repository contains three
database-backed handler variants (a raw-SQL vercel-postgres variant, a
drizzle/vercel-postgres variant with seed logic, and a drizzle/postgres-js
variant) plus a minimal stub server.  Time is modelled as `Nat`, JSON string
maps as association lists, and SQL NULL as `Option`.
-/

namespace UrlSwitcher

/-- A stored row of the `urls` table, per `db/schema.ts`:
id (text PK), name, main_url, sub_urls (jsonb), is_deleted (bool),
deleted_at (nullable timestamp), created_at, updated_at. -/
structure UrlRecord where
  id : String
  name : String
  mainUrl : String
  subUrls : List (String × String)
  isDeleted : Bool
  deletedAt : Option Nat
  createdAt : Nat
  updatedAt : Nat
deriving Repr, DecidableEq

/-- The JSON object placed in a response `data` field.  Handlers sometimes
return a full row (every field present) and sometimes a partial object;
absent JSON keys are `none`. -/
structure UrlView where
  id : String
  name : String
  mainUrl : String
  subUrls : List (String × String)
  isDeleted : Option Bool
  deletedAt : Option (Option Nat)
  createdAt : Option Nat
  updatedAt : Option Nat
deriving Repr, DecidableEq

/-- The uniform response envelope used by every endpoint. -/
structure Envelope (α : Type) where
  success : Bool
  data : Option α
  error : Option String
  message : Option String
deriving Repr, DecidableEq

/-- A create/update request body; `name`/`mainUrl` are `none` when the key is
missing from the JSON body. -/
structure UrlBody where
  name : Option String
  mainUrl : Option String
  subUrls : Option (List (String × String))
deriving Repr, DecidableEq

/-- The `data` object produced by `SELECT *` / `RETURNING *`: every column of
the row is present. -/
def fullView (r : UrlRecord) : UrlView :=
  ⟨r.id, r.name, r.mainUrl, r.subUrls, some r.isDeleted, some r.deletedAt,
   some r.createdAt, some r.updatedAt⟩

/-- The `{success:false, error}` envelope. -/
def errResp {α : Type} (e : String) : Envelope α := ⟨false, none, some e, none⟩

/-- The `{success:true, message}` envelope. -/
def okMsg {α : Type} (m : String) : Envelope α := ⟨true, none, none, some m⟩

/-- JavaScript falsiness of the destructured `name` / `mainUrl` fields:
`!x` is true exactly when the key is missing or the string is empty. -/
def blank : Option String → Bool
  | none => true
  | some s => s == ""

/-- Lexicographic text comparison on code points, the order behind
`ORDER BY name ASC`. -/
def strLeB : List Char → List Char → Bool
  | [], _ => true
  | _ :: _, [] => false
  | a :: as, b :: bs =>
    if a.toNat < b.toNat then true
    else if b.toNat < a.toNat then false
    else strLeB as bs

theorem strLeB_total (as bs : List Char) : strLeB as bs = true ∨ strLeB bs as = true := by
  induction as generalizing bs with
  | nil => left; rfl
  | cons a as ih =>
    cases bs with
    | nil => right; rfl
    | cons b bs =>
      rcases Nat.lt_trichotomy a.toNat b.toNat with h | h | h
      · left; simp [strLeB, h]
      · rcases ih bs with h2 | h2
        · left; simp [strLeB, h, h2]
        · right; simp [strLeB, h, h2]
      · right; simp [strLeB, h]

theorem strLeB_trans (as bs cs : List Char) (h1 : strLeB as bs = true)
    (h2 : strLeB bs cs = true) : strLeB as cs = true := by
  induction as generalizing bs cs with
  | nil => rfl
  | cons a as ih =>
    cases bs with
    | nil => simp [strLeB] at h1
    | cons b bs =>
      cases cs with
      | nil => simp [strLeB] at h2
      | cons c cs =>
        by_cases hab : a.toNat < b.toNat
        · by_cases hbc : b.toNat < c.toNat
          · simp [strLeB, Nat.lt_trans hab hbc]
          · by_cases hcb : c.toNat < b.toNat
            · simp [strLeB, hbc, hcb] at h2
            · have hbc2 : b.toNat = c.toNat :=
                Nat.le_antisymm (Nat.not_lt.mp hcb) (Nat.not_lt.mp hbc)
              simp [strLeB, hbc2 ▸ hab]
        · by_cases hba : b.toNat < a.toNat
          · simp [strLeB, hab, hba] at h1
          · have hab2 : a.toNat = b.toNat :=
              Nat.le_antisymm (Nat.not_lt.mp hba) (Nat.not_lt.mp hab)
            simp [strLeB, hab, hba] at h1
            by_cases hbc : b.toNat < c.toNat
            · simp [strLeB, hab2 ▸ hbc]
            · by_cases hcb : c.toNat < b.toNat
              · simp [strLeB, hbc, hcb] at h2
              · have hbc2 : b.toNat = c.toNat :=
                  Nat.le_antisymm (Nat.not_lt.mp hcb) (Nat.not_lt.mp hbc)
                simp [strLeB, hbc, hcb] at h2
                have hac : ¬ a.toNat < c.toNat := by
                  rw [hab2, hbc2]; exact Nat.lt_irrefl _
                have hca : ¬ c.toNat < a.toNat := by
                  rw [hab2, hbc2]; exact Nat.lt_irrefl _
                simp [strLeB, hac, hca]
                exact ih bs cs h1 h2

/-- The `ORDER BY name ASC` comparison on rows. -/
def nameLe (a b : UrlRecord) : Prop := strLeB a.name.data b.name.data = true

instance : DecidableRel nameLe := fun a b =>
  inferInstanceAs (Decidable (strLeB a.name.data b.name.data = true))

instance : IsTotal UrlRecord nameLe :=
  ⟨fun a b => strLeB_total a.name.data b.name.data⟩

instance : IsTrans UrlRecord nameLe :=
  ⟨fun _ _ _ h h2 => strLeB_trans _ _ _ h h2⟩

/-- Sorting of a result set by `ORDER BY name ASC`. -/
def sortByName (l : List UrlRecord) : List UrlRecord := List.insertionSort nameLe l

/-- GET /api/urls (all database-backed variants):
`SELECT * FROM urls WHERE is_deleted = false ORDER BY name ASC`;
a store failure is caught and reported as `Failed to fetch URLs`. -/
def listUrls (dbUp : Bool) (store : List UrlRecord) : Envelope (List UrlView) :=
  if dbUp then
    ⟨true, some ((sortByName (store.filter (fun r => !r.isDeleted))).map fullView),
     none, none⟩
  else errResp "Failed to fetch URLs"

/-- GET /api/urls in the minimal `server.ts` stub: no database, always
`{success:true, data: [], message: "API endpoint working - no database yet"}`. -/
def listUrlsStub : Envelope (List UrlView) :=
  ⟨true, some [], none, some "API endpoint working - no database yet"⟩

/-- GET /api/urls/:id (all database-backed variants):
`SELECT * FROM urls WHERE id = :id AND is_deleted = false LIMIT 1`. -/
def getUrl (id : String) (store : List UrlRecord) : Envelope UrlView :=
  match store.find? (fun r => r.id == id && !r.isDeleted) with
  | none => errResp "URL not found"
  | some r => ⟨true, some (fullView r), none, none⟩

/-- POST /api/urls, drizzle variants: validate, insert
`{id, name, mainUrl, subUrls, isDeleted:false}` (timestamps from the column
defaults, `deleted_at` NULL), and echo the inserted JS object as `data`.
A duplicate primary key makes the insert throw, caught as
`Failed to create URL`. -/
def createUrl (id : String) (t : Nat) (body : UrlBody) (store : List UrlRecord) :
    Envelope UrlView × List UrlRecord :=
  if blank body.name || blank body.mainUrl then
    (errResp "Name and mainUrl are required", store)
  else
    let nm := body.name.getD ""
    let mu := body.mainUrl.getD ""
    let su := body.subUrls.getD []
    if store.any (fun x => x.id == id) then
      (errResp "Failed to create URL", store)
    else
      (⟨true, some ⟨id, nm, mu, su, some false, none, none, none⟩, none, none⟩,
       store ++ [⟨id, nm, mu, su, false, none, t, t⟩])

/-- POST /api/urls, raw-SQL variant: after validation it sends an INSERT
whose VALUES clause reads `false, ()NOW, ()NOW`; `()NOW` is a SQL syntax
error, so the statement always throws before inserting anything and the
catch block answers `Failed to create URL` with the store untouched. -/
def createUrlRaw (_id : String) (_t : Nat) (body : UrlBody) (store : List UrlRecord) :
    Envelope UrlView × List UrlRecord :=
  if blank body.name || blank body.mainUrl then
    (errResp "Name and mainUrl are required", store)
  else
    (errResp "Failed to create URL", store)

/-- The row written by a successful update: name, mainUrl, subUrls
overwritten and updated_at refreshed; every other column untouched. -/
def overwrite (nm mu : String) (su : List (String × String)) (t : Nat)
    (x : UrlRecord) : UrlRecord :=
  ⟨x.id, nm, mu, su, x.isDeleted, x.deletedAt, x.createdAt, t⟩

/-- PUT /api/urls/:id, drizzle variants: validate; check a row with this id
and `is_deleted = false` exists (`URL not found` otherwise); then
`UPDATE ... WHERE id = :id`; `data` echoes the partial JS object
`{id, name, mainUrl, subUrls}`. -/
def updateUrl (id : String) (t : Nat) (body : UrlBody) (store : List UrlRecord) :
    Envelope UrlView × List UrlRecord :=
  if blank body.name || blank body.mainUrl then
    (errResp "Name and mainUrl are required", store)
  else
    let nm := body.name.getD ""
    let mu := body.mainUrl.getD ""
    let su := body.subUrls.getD []
    match store.find? (fun r => r.id == id && !r.isDeleted) with
    | none => (errResp "URL not found", store)
    | some _ =>
      (⟨true, some ⟨id, nm, mu, su, none, none, none, none⟩, none, none⟩,
       store.map (fun x => if x.id == id then overwrite nm mu su t x else x))

/-- PUT /api/urls/:id, raw-SQL variant: validation and the
`is_deleted = false` existence check (a well-formed SELECT) run as in the
drizzle variants, but the UPDATE then issued contains
`"updatedAt" = ()NOW`, a SQL syntax error, so it always throws before
modifying any row and the catch block answers `Failed to update URL` with
the store untouched. -/
def updateUrlRaw (id : String) (_t : Nat) (body : UrlBody) (store : List UrlRecord) :
    Envelope UrlView × List UrlRecord :=
  if blank body.name || blank body.mainUrl then
    (errResp "Name and mainUrl are required", store)
  else
    match store.find? (fun r => r.id == id && !r.isDeleted) with
    | none => (errResp "URL not found", store)
    | some _ => (errResp "Failed to update URL", store)

/-- The row after soft deletion: `is_deleted = true`, `deleted_at = now`;
no other column (updated_at included) is touched. -/
def softDeleteRec (t : Nat) (x : UrlRecord) : UrlRecord :=
  ⟨x.id, x.name, x.mainUrl, x.subUrls, true, some t, x.createdAt, x.updatedAt⟩

/-- DELETE /api/urls/:id, drizzle variants:
`UPDATE urls SET is_deleted = true, deleted_at = now WHERE id = :id` with no
affected-row check — the handler reports success unconditionally. -/
def deleteUrl (id : String) (t : Nat) (store : List UrlRecord) :
    Envelope UrlView × List UrlRecord :=
  (okMsg "URL deleted successfully",
   store.map (fun x => if x.id == id then softDeleteRec t x else x))

/-- DELETE /api/urls/:id, raw-SQL variant: the UPDATE it sends contains
`"deletedAt" = ()NOW`, a SQL syntax error, so the statement always throws
before touching any row and the catch block answers `Failed to delete URL`
with the store untouched; the handler's zero-returned-rows not-found check
is dead code. -/
def deleteUrlRaw (_id : String) (_t : Nat) (store : List UrlRecord) :
    Envelope UrlView × List UrlRecord :=
  (errResp "Failed to delete URL", store)

/-- Column names created by `db/migrations/0000_flawless_gideon.sql`. -/
def migrationColumns : List String :=
  ["id", "name", "main_url", "sub_urls", "created_at", "updated_at"]

/-- Column names declared by `urlsTable` in `db/schema.ts`. -/
def schemaColumns : List String :=
  ["id", "name", "main_url", "sub_urls", "is_deleted", "deleted_at",
   "created_at", "updated_at"]

/-- The column list asserted by the specification (claim side, for
comparison with the source-side lists above). -/
def specClaimedColumns : List String :=
  ["id", "name", "main_url", "sub_urls", "is_deleted", "deleted_at",
   "created_at", "updated_at"]

/-- First seed row inserted by `initializeDatabase` in the
vercel-postgres drizzle variant. -/
def bbcSeed (id : String) (t : Nat) : UrlRecord :=
  ⟨id, "BBC News", "https://www.bbc.com",
   [("us", "https://www.bbc.com/news/world/us_and_canada"),
    ("uk", "https://www.bbc.co.uk"),
    ("in", "https://www.bbc.com/news/world/asia/india")],
   false, none, t, t⟩

/-- Second seed row inserted by `initializeDatabase`. -/
def googleSeed (id : String) (t : Nat) : UrlRecord :=
  ⟨id, "Google", "https://www.google.com",
   [("in", "https://www.google.co.in"),
    ("uk", "https://www.google.co.uk"),
    ("jp", "https://www.google.co.jp")],
   false, none, t, t⟩

/-- Database plus the process-wide `isInitialized` flag. -/
structure DbState where
  store : List UrlRecord
  isInitialized : Bool
deriving Repr, DecidableEq

/-- Startup logic `initializeDatabase` of the vercel-postgres drizzle variant: a no-op once
`isInitialized` is set; otherwise it seeds the two initial rows when the
table is empty and then sets the flag. -/
def initializeDatabase (id1 id2 : String) (t : Nat) (s : DbState) : DbState :=
  if s.isInitialized then s
  else if s.store.isEmpty then
    ⟨s.store ++ [bbcSeed id1 t, googleSeed id2 t], true⟩
  else ⟨s.store, true⟩

/-- One store-mutating request. -/
inductive Op where
  | opCreate (id : String) (t : Nat) (body : UrlBody)
  | opUpdate (id : String) (t : Nat) (body : UrlBody)
  | opDelete (id : String) (t : Nat)
deriving Repr, DecidableEq

/-- The store after one request (drizzle variant handlers). -/
def applyOp (store : List UrlRecord) : Op → List UrlRecord
  | .opCreate id t body => (createUrl id t body store).2
  | .opUpdate id t body => (updateUrl id t body store).2
  | .opDelete id t => (deleteUrl id t store).2

/-- The store reached from an empty table by a request sequence. -/
def runOps (ops : List Op) : List UrlRecord := ops.foldl applyOp []

/-- The soft-delete invariant: `deleted_at` is non-NULL iff `is_deleted`. -/
def softDeleteInv (store : List UrlRecord) : Bool :=
  store.all (fun r => r.deletedAt.isSome == r.isDeleted)

/-! ### Helper lemmas -/

/-- Distinct primary keys: two rows of a store with equal ids are equal. -/
theorem pairwise_id_unique {store : List UrlRecord}
    (hp : store.Pairwise (fun a b => a.id ≠ b.id))
    {a b : UrlRecord} (ha : a ∈ store) (hb : b ∈ store) (hid : a.id = b.id) :
    a = b := by
  induction store with
  | nil => cases ha
  | cons x l ih =>
    rcases List.pairwise_cons.mp hp with ⟨hx, hl⟩
    rcases List.mem_cons.mp ha with ha2 | ha2 <;>
      rcases List.mem_cons.mp hb with hb2 | hb2
    · rw [ha2, hb2]
    · exact absurd (ha2 ▸ hid) (hx b hb2)
    · exact absurd (hb2 ▸ hid.symm) (hx a ha2)
    · exact ih hl ha2 hb2

/-- Row lookup skips a prefix on which the predicate is false. -/
theorem find_skip {α : Type} (p : α → Bool) (l1 l2 : List α)
    (h : ∀ x ∈ l1, p x = false) :
    (l1 ++ l2).find? p = l2.find? p := by
  induction l1 with
  | nil => rfl
  | cons a l ih =>
    have ha : p a = false := h a (List.mem_cons_self a l)
    simp only [List.cons_append, List.find?]
    rw [ha]
    exact ih (fun x hx => h x (List.mem_cons_of_mem a hx))

/-- With distinct ids, the row lookup of get/update finds exactly the
non-deleted row carrying the id. -/
theorem find_self {store : List UrlRecord} {r : UrlRecord} {id : String}
    (hp : store.Pairwise (fun a b => a.id ≠ b.id)) (hr : r ∈ store)
    (hid : r.id = id) (hdel : r.isDeleted = false) :
    store.find? (fun x => x.id == id && !x.isDeleted) = some r := by
  induction store with
  | nil => cases hr
  | cons a l ih =>
    rcases List.pairwise_cons.mp hp with ⟨ha, hl⟩
    rcases List.mem_cons.mp hr with hr2 | hr2
    · subst hr2
      have : (r.id == id && !r.isDeleted) = true := by simp [hid, hdel]
      simp [List.find?, this]
    · have hne : a.id ≠ id := fun he => ha r hr2 (he.trans hid.symm)
      have : (a.id == id && !a.isDeleted) = false := by
        simp [hne]
      simp [List.find?, this]
      exact ih hl hr2

/-- Membership form of the soft-delete invariant. -/
theorem softDeleteInv_iff (store : List UrlRecord) :
    softDeleteInv store = true ↔ ∀ r ∈ store, r.deletedAt.isSome = r.isDeleted := by
  simp [softDeleteInv, List.all_eq_true]

/-- Every single request preserves the soft-delete invariant. -/
theorem softDeleteInv_applyOp (store : List UrlRecord) (op : Op)
    (h : softDeleteInv store = true) : softDeleteInv (applyOp store op) = true := by
  rw [softDeleteInv_iff] at h ⊢
  cases op with
  | opCreate id t body =>
    simp only [applyOp, createUrl]
    by_cases hv : (blank body.name || blank body.mainUrl) = true
    · simp [hv]; exact h
    · rw [if_neg hv]
      by_cases hd : store.any (fun x => x.id == id) = true
      · simp [hd]; exact h
      · simp only [hd, if_false]
        intro r hr
        rcases List.mem_append.mp hr with hr2 | hr2
        · exact h r hr2
        · rcases List.mem_singleton.mp hr2 with rfl
          rfl
  | opUpdate id t body =>
    simp only [applyOp, updateUrl]
    by_cases hv : (blank body.name || blank body.mainUrl) = true
    · simp [hv]; exact h
    · rw [if_neg hv]
      cases hf : store.find? (fun r => r.id == id && !r.isDeleted) with
      | none => simpa using h
      | some w =>
        simp only
        intro r hr
        rcases List.mem_map.mp hr with ⟨x, hx, hfx⟩
        by_cases hc : (x.id == id) = true
        · rw [← hfx, if_pos hc]
          exact h x hx
        · rw [← hfx, if_neg hc]
          exact h x hx
  | opDelete id t =>
    simp only [applyOp, deleteUrl]
    intro r hr
    rcases List.mem_map.mp hr with ⟨x, hx, hfx⟩
    by_cases hc : (x.id == id) = true
    · rw [← hfx, if_pos hc]
      rfl
    · rw [← hfx, if_neg hc]
      exact h x hx

/-! ### Claim theorems -/

/-- C1: the claim states the intended affected-rows split, which the drizzle
delete variants satisfy by reporting success unconditionally; but the
raw-SQL delete's UPDATE text is malformed (`"deletedAt" = ()NOW`), so that
handler answers `Failed to delete URL` for every id and store — present,
soft-deleted or absent — leaving its zero-rows not-found check dead and
contradicting the claim at any present id, where the claim (and the
handler's own structure) require the success message. -/
theorem delete_raw_behavior :
    (∀ (id : String) (t : Nat) (store : List UrlRecord),
      deleteUrlRaw id t store = (errResp "Failed to delete URL", store)) ∧
    (deleteUrlRaw "a" 1 [⟨"a", "N", "u", [], false, none, 0, 0⟩]).1 ≠
      okMsg "URL deleted successfully" ∧
    (deleteUrlRaw "a" 1 [⟨"a", "N", "u", [], false, none, 0, 0⟩]).1 ≠
      errResp "URL not found" ∧
    (deleteUrl "a" 1 [⟨"a", "N", "u", [], false, none, 0, 0⟩]).1 =
      okMsg "URL deleted successfully" ∧
    (deleteUrl "a" 1 [⟨"a", "N", "u", [], false, none, 0, 0⟩]).2 =
      [⟨"a", "N", "u", [], true, some 1, 0, 0⟩] :=
  ⟨fun _ _ _ => rfl, by decide, by decide, by decide, by decide⟩

/-- C2: the columns declared by `db/schema.ts` are exactly the eight the
specification claims, but the checked-in migration
`0000_flawless_gideon.sql` creates only six of them — it omits the
`is_deleted` and `deleted_at` columns that every soft-delete query relies
on. -/
theorem migration_schema_columns :
    schemaColumns = specClaimedColumns ∧
    migrationColumns ≠ specClaimedColumns ∧
    "is_deleted" ∉ migrationColumns ∧
    "deleted_at" ∉ migrationColumns ∧
    "is_deleted" ∈ schemaColumns ∧
    "deleted_at" ∈ schemaColumns := by decide

/-- C5: a create or update whose body has a missing or empty `name` or
`mainUrl` returns `{success:false, error:"Name and mainUrl are required"}` and
leaves the store untouched, in every handler variant. -/
theorem validation_no_persistence (id : String) (t : Nat) (body : UrlBody)
    (store : List UrlRecord)
    (h : blank body.name = true ∨ blank body.mainUrl = true) :
    createUrl id t body store = (errResp "Name and mainUrl are required", store) ∧
    createUrlRaw id t body store = (errResp "Name and mainUrl are required", store) ∧
    updateUrl id t body store = (errResp "Name and mainUrl are required", store) ∧
    updateUrlRaw id t body store = (errResp "Name and mainUrl are required", store) := by
  have hc : (blank body.name || blank body.mainUrl) = true := by
    rcases h with h | h <;> simp [h]
  rw [createUrl, createUrlRaw, updateUrl, updateUrlRaw]
  rw [if_pos hc, if_pos hc, if_pos hc, if_pos hc]
  exact ⟨rfl, rfl, rfl, rfl⟩

/-- C5 witness: an empty `name` with a missing `mainUrl` is rejected without
persistence at a concrete store. -/
theorem validation_no_persistence_witness :
    createUrl "x" 0 ⟨some "", none, none⟩ [] =
      (errResp "Name and mainUrl are required", []) ∧
    updateUrl "x" 0 ⟨some "", none, none⟩ [] =
      (errResp "Name and mainUrl are required", []) := by
  refine ⟨(validation_no_persistence "x" 0 ⟨some "", none, none⟩ [] ?_).1,
    (validation_no_persistence "x" 0 ⟨some "", none, none⟩ [] ?_).2.2.1⟩ <;>
    exact Or.inl (by decide)

/-- C3 counterexample: at a concrete non-deleted row and valid body the
drizzle update succeeds and writes the overwritten row with refreshed
`updatedAt`, yet the envelope's `data` is not the full view of that updated
record — it carries no `isDeleted` flag and no timestamps. -/
theorem update_full_view_counterexample :
    ((updateUrl "u1" 5 ⟨some "New", some "http://new", some [("a", "http://x")]⟩
        [⟨"u1", "Old", "http://old", [], false, none, 0, 0⟩]).1).success = true ∧
    (updateUrl "u1" 5 ⟨some "New", some "http://new", some [("a", "http://x")]⟩
        [⟨"u1", "Old", "http://old", [], false, none, 0, 0⟩]).2 =
      [⟨"u1", "New", "http://new", [("a", "http://x")], false, none, 0, 5⟩] ∧
    ((updateUrl "u1" 5 ⟨some "New", some "http://new", some [("a", "http://x")]⟩
        [⟨"u1", "Old", "http://old", [], false, none, 0, 0⟩]).1).data ≠
      some (fullView ⟨"u1", "New", "http://new", [("a", "http://x")], false, none, 0, 5⟩) := by
  decide

/-- C3 amended: a successful update — possible only in the drizzle variants —
overwrites `name`, `mainUrl`, `subUrls` and refreshes `updatedAt` in the
store, but its envelope's `data` is only the partial object
`{id, name, mainUrl, subUrls}` without flags or timestamps; the raw-SQL
variant's UPDATE text is malformed (`"updatedAt" = ()NOW`), so at an
existing non-deleted id it always answers
`{success:false, error:"Failed to update URL"}` with the store unchanged and
never produces a success envelope. -/
theorem update_success_spec (id : String) (t : Nat) (body : UrlBody)
    (store : List UrlRecord) (r : UrlRecord)
    (hp : store.Pairwise (fun a b => a.id ≠ b.id))
    (hr : r ∈ store) (hid : r.id = id) (hdel : r.isDeleted = false)
    (hn : blank body.name = false) (hm : blank body.mainUrl = false) :
    (updateUrl id t body store).2 =
      store.map (fun x => if x.id == id then
        overwrite (body.name.getD "") (body.mainUrl.getD "")
          (body.subUrls.getD []) t x else x) ∧
    overwrite (body.name.getD "") (body.mainUrl.getD "") (body.subUrls.getD []) t r ∈
      (updateUrl id t body store).2 ∧
    (updateUrl id t body store).1 =
      ⟨true, some ⟨id, body.name.getD "", body.mainUrl.getD "",
        body.subUrls.getD [], none, none, none, none⟩, none, none⟩ ∧
    (updateUrlRaw id t body store).1 = errResp "Failed to update URL" ∧
    (updateUrlRaw id t body store).2 = store := by
  have hv : (blank body.name || blank body.mainUrl) = false := by
    simp [hn, hm]
  have hfind := find_self hp hr hid hdel
  have hcond : (r.id == id) = true := by simp [hid]
  constructor
  · rw [updateUrl, if_neg (by simp [hv]), hfind]
  constructor
  · rw [updateUrl, if_neg (by simp [hv]), hfind]
    exact List.mem_map.mpr ⟨r, hr, by rw [if_pos hcond]⟩
  constructor
  · rw [updateUrl, if_neg (by simp [hv]), hfind]
  constructor
  · rw [updateUrlRaw, if_neg (by simp [hv]), hfind]
  · rw [updateUrlRaw, if_neg (by simp [hv]), hfind]

/-- C3 witness: the amended statement at a concrete store, row and body. -/
theorem update_success_spec_witness :
    (updateUrl "u1" 5 ⟨some "New", some "http://new", none⟩
        [⟨"u1", "Old", "http://old", [("k", "v")], false, none, 2, 3⟩]).2 =
      [⟨"u1", "New", "http://new", [], false, none, 2, 5⟩] ∧
    (updateUrlRaw "u1" 5 ⟨some "New", some "http://new", none⟩
        [⟨"u1", "Old", "http://old", [("k", "v")], false, none, 2, 3⟩]).1 =
      errResp "Failed to update URL" ∧
    (updateUrlRaw "u1" 5 ⟨some "New", some "http://new", none⟩
        [⟨"u1", "Old", "http://old", [("k", "v")], false, none, 2, 3⟩]).2 =
      [⟨"u1", "Old", "http://old", [("k", "v")], false, none, 2, 3⟩] := by
  have h := update_success_spec "u1" 5 ⟨some "New", some "http://new", none⟩
    [⟨"u1", "Old", "http://old", [("k", "v")], false, none, 2, 3⟩]
    ⟨"u1", "Old", "http://old", [("k", "v")], false, none, 2, 3⟩
    (by decide) (by decide) rfl rfl rfl rfl
  exact ⟨by rw [h.1]; decide, h.2.2.2.1, h.2.2.2.2⟩

/-- C4 counterexample: the stub variant's list response at a store holding one
non-deleted record is the empty array, not that record's view, so the stub
does not return the non-deleted records. -/
theorem list_stub_counterexample :
    listUrlsStub.data = some [] ∧
    (listUrls true [⟨"u1", "A", "http://a", [], false, none, 0, 0⟩]).data =
      some [fullView ⟨"u1", "A", "http://a", [], false, none, 0, 0⟩] ∧
    listUrlsStub.data ≠
      some [fullView ⟨"u1", "A", "http://a", [], false, none, 0, 0⟩] := by decide

/-- C4 amended: the database-backed list returns exactly the rows with
`isDeleted = false`, ordered by name ascending, succeeding whenever the store
is reachable and returning `{success:false, error:"Failed to fetch URLs"}`
when it is not; the minimal stub variant ignores any store and always answers
`{success:true, data: []}` with a fixed message. -/
theorem list_spec (store : List UrlRecord) :
    (∃ l : List UrlRecord, (listUrls true store).data = some (l.map fullView) ∧
      l.Perm (store.filter (fun r => !r.isDeleted)) ∧ l.Sorted nameLe) ∧
    (listUrls true store).success = true ∧
    listUrls false store = errResp "Failed to fetch URLs" ∧
    listUrlsStub = ⟨true, some [], none, some "API endpoint working - no database yet"⟩ := by
  refine ⟨⟨sortByName (store.filter (fun r => !r.isDeleted)), rfl, ?_, ?_⟩,
    rfl, rfl, rfl⟩
  · exact List.perm_insertionSort nameLe _
  · exact List.sorted_insertionSort nameLe _

/-- C6: with a valid body, updating an id that is absent or belongs to a
soft-deleted row returns `{success:false, error:"URL not found"}` and leaves
the store unchanged in both variants; moreover no update ever modifies a
soft-deleted row — such a row survives any update call unchanged. -/
theorem update_not_found_frame (id : String) (t : Nat) (body : UrlBody)
    (store : List UrlRecord)
    (hn : blank body.name = false) (hm : blank body.mainUrl = false)
    (habs : ∀ r ∈ store, r.id = id → r.isDeleted = true) :
    ((updateUrl id t body store).1 = errResp "URL not found" ∧
     (updateUrl id t body store).2 = store ∧
     (updateUrlRaw id t body store).1 = errResp "URL not found" ∧
     (updateUrlRaw id t body store).2 = store) ∧
    ∀ (id2 : String) (t2 : Nat) (b2 : UrlBody) (st2 : List UrlRecord)
      (r : UrlRecord), st2.Pairwise (fun a b => a.id ≠ b.id) → r ∈ st2 →
      r.isDeleted = true → r ∈ (updateUrl id2 t2 b2 st2).2 := by
  have hv : (blank body.name || blank body.mainUrl) = false := by simp [hn, hm]
  have hfind : store.find? (fun x => x.id == id && !x.isDeleted) = none := by
    rw [List.find?_eq_none]
    intro x hx hpx
    rcases Bool.and_eq_true_iff.mp hpx with ⟨h1, h2⟩
    have hxid : x.id = id := by simpa using h1
    have := habs x hx hxid
    rw [this] at h2
    exact absurd h2 (by decide)
  constructor
  · rw [updateUrl, updateUrlRaw, if_neg (by simp [hv]), if_neg (by simp [hv]),
      hfind]
    exact ⟨rfl, rfl, rfl, rfl⟩
  · intro id2 t2 b2 st2 r hp hr hdel
    rw [updateUrl]
    by_cases hv2 : (blank b2.name || blank b2.mainUrl) = true
    · rw [if_pos hv2]; exact hr
    · rw [if_neg hv2]
      cases hf : st2.find? (fun x => x.id == id2 && !x.isDeleted) with
      | none => exact hr
      | some w =>
        simp only
        have hw : w ∈ st2 := List.mem_of_find?_eq_some hf
        have hwp := List.find?_some hf
        rcases Bool.and_eq_true_iff.mp hwp with ⟨hw1, hw2⟩
        have hwid : w.id = id2 := by simpa using hw1
        have hwdel : w.isDeleted = false := by simpa using hw2
        have hne : r.id ≠ id2 := by
          intro he
          have := pairwise_id_unique hp hr hw (he.trans hwid.symm)
          rw [this, hwdel] at hdel
          exact absurd hdel (by decide)
        exact List.mem_map.mpr ⟨r, hr, by rw [if_neg (by simp [hne])]⟩

/-- C6 witness: a soft-deleted row neither satisfies an update (not-found,
store unchanged) nor gets resurrected. -/
theorem update_not_found_frame_witness :
    (updateUrl "u1" 7 ⟨some "N", some "M", none⟩
        [⟨"u1", "Old", "http://old", [], true, some 1, 0, 0⟩]).1 =
      errResp "URL not found" ∧
    (updateUrl "u1" 7 ⟨some "N", some "M", none⟩
        [⟨"u1", "Old", "http://old", [], true, some 1, 0, 0⟩]).2 =
      [⟨"u1", "Old", "http://old", [], true, some 1, 0, 0⟩] ∧
    (⟨"u1", "Old", "http://old", [], true, some 1, 0, 0⟩ : UrlRecord) ∈
      (updateUrl "u2" 7 ⟨some "N", some "M", none⟩
        [⟨"u1", "Old", "http://old", [], true, some 1, 0, 0⟩,
         ⟨"u2", "B", "http://b", [], false, none, 0, 0⟩]).2 := by
  have h := update_not_found_frame "u1" 7 ⟨some "N", some "M", none⟩
    [⟨"u1", "Old", "http://old", [], true, some 1, 0, 0⟩] rfl rfl
    (by decide)
  refine ⟨h.1.1, h.1.2.1, ?_⟩
  exact h.2 "u2" 7 ⟨some "N", some "M", none⟩
    [⟨"u1", "Old", "http://old", [], true, some 1, 0, 0⟩,
     ⟨"u2", "B", "http://b", [], false, none, 0, 0⟩]
    ⟨"u1", "Old", "http://old", [], true, some 1, 0, 0⟩
    (by decide) (by decide) rfl

/-- C7: with distinct primary keys, get-by-id answers the full view of the
unique non-deleted row carrying the id when one exists, and
`{success:false, error:"URL not found"}` when the id is absent or its row is
soft-deleted. -/
theorem get_by_id_spec (id : String) (store : List UrlRecord)
    (hp : store.Pairwise (fun a b => a.id ≠ b.id)) :
    (∀ r ∈ store, r.id = id → r.isDeleted = false →
      getUrl id store = ⟨true, some (fullView r), none, none⟩) ∧
    ((∀ r ∈ store, r.id = id → r.isDeleted = true) →
      getUrl id store = errResp "URL not found") := by
  constructor
  · intro r hr hid hdel
    rw [getUrl, find_self hp hr hid hdel]
  · intro habs
    have hfind : store.find? (fun x => x.id == id && !x.isDeleted) = none := by
      rw [List.find?_eq_none]
      intro x hx hpx
      rcases Bool.and_eq_true_iff.mp hpx with ⟨h1, h2⟩
      have hxid : x.id = id := by simpa using h1
      have := habs x hx hxid
      rw [this] at h2
      exact absurd h2 (by decide)
    rw [getUrl, hfind]

/-- C7 witness: a present non-deleted row is returned; a soft-deleted one and
an absent id give not-found. -/
theorem get_by_id_spec_witness :
    getUrl "a" [⟨"a", "N", "u", [], false, none, 0, 0⟩] =
      ⟨true, some (fullView ⟨"a", "N", "u", [], false, none, 0, 0⟩), none, none⟩ ∧
    getUrl "a" [⟨"a", "N", "u", [], true, some 1, 0, 0⟩] =
      errResp "URL not found" ∧
    getUrl "b" [⟨"a", "N", "u", [], false, none, 0, 0⟩] =
      errResp "URL not found" := by
  refine ⟨(get_by_id_spec "a" [⟨"a", "N", "u", [], false, none, 0, 0⟩]
      (by decide)).1 _ (by decide) rfl rfl,
    (get_by_id_spec "a" [⟨"a", "N", "u", [], true, some 1, 0, 0⟩]
      (by decide)).2 (by decide),
    (get_by_id_spec "b" [⟨"a", "N", "u", [], false, none, 0, 0⟩]
      (by decide)).2 (by decide)⟩

/-- C8: creating with a valid body and a fresh id appends the row
`{id, name, mainUrl, subUrls (defaulting to the empty mapping), isDeleted
false, deletedAt null, createdAt = updatedAt = now}`, and a subsequent
get-by-id with the returned id retrieves exactly that row, its `subUrls`
being exactly the supplied mapping. -/
theorem create_get_roundtrip (id : String) (t : Nat) (body : UrlBody)
    (store : List UrlRecord)
    (hn : blank body.name = false) (hm : blank body.mainUrl = false)
    (hfresh : ∀ r ∈ store, r.id ≠ id) :
    (createUrl id t body store).1.success = true ∧
    (createUrl id t body store).2 = store ++
      [⟨id, body.name.getD "", body.mainUrl.getD "", body.subUrls.getD [],
        false, none, t, t⟩] ∧
    getUrl id (createUrl id t body store).2 =
      ⟨true, some (fullView ⟨id, body.name.getD "", body.mainUrl.getD "",
        body.subUrls.getD [], false, none, t, t⟩), none, none⟩ ∧
    (body.subUrls = none → body.subUrls.getD [] = []) ∧
    (∀ su : List (String × String), body.subUrls = some su →
      body.subUrls.getD [] = su) ∧
    (⟨id, body.name.getD "", body.mainUrl.getD "", body.subUrls.getD [],
      false, none, t, t⟩ : UrlRecord).createdAt =
      (⟨id, body.name.getD "", body.mainUrl.getD "", body.subUrls.getD [],
        false, none, t, t⟩ : UrlRecord).updatedAt := by
  have hv : (blank body.name || blank body.mainUrl) = false := by simp [hn, hm]
  have hany : store.any (fun x => x.id == id) = false := by
    rw [Bool.eq_false_iff]
    intro hcontra
    rcases List.any_eq_true.mp hcontra with ⟨x, hx, hxe⟩
    exact hfresh x hx (by simpa using hxe)
  have hstore : (createUrl id t body store).2 = store ++
      [⟨id, body.name.getD "", body.mainUrl.getD "", body.subUrls.getD [],
        false, none, t, t⟩] := by
    rw [createUrl, if_neg (by simp [hv])]
    simp only [hany, Bool.false_eq_true, if_false]
  have hsuccess : (createUrl id t body store).1.success = true := by
    rw [createUrl, if_neg (by simp [hv])]
    simp only [hany, Bool.false_eq_true, if_false]
  refine ⟨hsuccess, hstore, ?_, fun h => by rw [h]; rfl,
    fun su h => by rw [h]; rfl, rfl⟩
  rw [hstore, getUrl,
    find_skip _ store _ (fun x hx => by simp [hfresh x hx]),
    List.find?_cons_of_pos _ (by simp)]

/-- C8 witness: a concrete create with an explicit two-entry mapping and a
concrete create with the mapping omitted, both retrieved by their id. -/
theorem create_get_roundtrip_witness :
    (createUrl "u9" 4 ⟨some "Example", some "https://example.com",
        some [("a", "http://x"), ("b", "http://y")]⟩ []).2 =
      [⟨"u9", "Example", "https://example.com",
        [("a", "http://x"), ("b", "http://y")], false, none, 4, 4⟩] ∧
    getUrl "u9" (createUrl "u9" 4 ⟨some "Example", some "https://example.com",
        some [("a", "http://x"), ("b", "http://y")]⟩ []).2 =
      ⟨true, some (fullView ⟨"u9", "Example", "https://example.com",
        [("a", "http://x"), ("b", "http://y")], false, none, 4, 4⟩),
       none, none⟩ ∧
    (createUrl "u8" 4 ⟨some "Example", some "https://example.com", none⟩ []).2 =
      [⟨"u8", "Example", "https://example.com", [], false, none, 4, 4⟩] := by
  have h1 := create_get_roundtrip "u9" 4 ⟨some "Example", some "https://example.com",
    some [("a", "http://x"), ("b", "http://y")]⟩ [] rfl rfl (by decide)
  have h2 := create_get_roundtrip "u8" 4
    ⟨some "Example", some "https://example.com", none⟩ [] rfl rfl (by decide)
  exact ⟨h1.2.1, h1.2.2.1, h2.2.1⟩

/-- C9: in every store reachable from the empty table by create, update and
delete requests, `deletedAt` is non-null exactly when `isDeleted` is true:
create inserts rows with `isDeleted = false` and `deletedAt` null, delete
sets both together, and update touches neither. -/
theorem soft_delete_invariant (ops : List Op) :
    softDeleteInv (runOps ops) = true := by
  suffices h : ∀ store : List UrlRecord, softDeleteInv store = true →
      softDeleteInv (ops.foldl applyOp store) = true by
    exact h [] rfl
  induction ops with
  | nil => intro store h; exact h
  | cons op ops ih =>
    intro store h
    exact ih (applyOp store op) (softDeleteInv_applyOp store op h)

/-- Listing a two-row store whose first row precedes the second by name. -/
theorem listUrls_pair (a b : UrlRecord) (hab : nameLe a b)
    (ha : a.isDeleted = false) (hb : b.isDeleted = false) :
    listUrls true [a, b] = ⟨true, some [fullView a, fullView b], none, none⟩ := by
  rw [listUrls, if_pos rfl]
  have hfilter : List.filter (fun r => !r.isDeleted) [a, b] = [a, b] := by
    simp [List.filter, ha, hb]
  rw [hfilter, sortByName]
  simp [List.insertionSort, List.orderedInsert, hab]

/-- C10: on a fresh deployment (empty table, flag unset) the vercel-postgres
variant's `initializeDatabase` inserts exactly the two seed rows named
"BBC News" and "Google", each non-deleted with a three-entry `subUrls`
mapping; the first list call then returns exactly these two rows; the
process-wide `isInitialized` flag is set, making every later call of
`initializeDatabase` a no-op. -/
theorem initialize_seeds (id1 id2 id3 id4 : String) (t t2 : Nat) (s : DbState) :
    initializeDatabase id1 id2 t ⟨[], false⟩ =
      ⟨[bbcSeed id1 t, googleSeed id2 t], true⟩ ∧
    (bbcSeed id1 t).name = "BBC News" ∧ (googleSeed id2 t).name = "Google" ∧
    (bbcSeed id1 t).isDeleted = false ∧ (googleSeed id2 t).isDeleted = false ∧
    (bbcSeed id1 t).subUrls.length = 3 ∧ (googleSeed id2 t).subUrls.length = 3 ∧
    listUrls true (initializeDatabase id1 id2 t ⟨[], false⟩).store =
      ⟨true, some [fullView (bbcSeed id1 t), fullView (googleSeed id2 t)],
       none, none⟩ ∧
    (initializeDatabase id1 id2 t s).isInitialized = true ∧
    initializeDatabase id3 id4 t2 (initializeDatabase id1 id2 t s) =
      initializeDatabase id1 id2 t s := by
  have hflag : ∀ (a b : String) (u : Nat) (s2 : DbState),
      (initializeDatabase a b u s2).isInitialized = true := by
    intro a b u s2
    rw [initializeDatabase]
    by_cases h2 : s2.isInitialized = true
    · rw [if_pos h2]; exact h2
    · rw [if_neg h2]
      by_cases h3 : s2.store.isEmpty = true
      · rw [if_pos h3]
      · rw [if_neg h3]
  have hle : nameLe (bbcSeed id1 t) (googleSeed id2 t) :=
    (by decide : strLeB "BBC News".data "Google".data = true)
  refine ⟨rfl, rfl, rfl, rfl, rfl, rfl, rfl, ?_, hflag id1 id2 t s, ?_⟩
  · exact listUrls_pair (bbcSeed id1 t) (googleSeed id2 t) hle rfl rfl
  · rw [initializeDatabase, if_pos (hflag id1 id2 t s)]

end UrlSwitcher
